import Mathlib

/-!
# FATIMA-ZEHRA-BOUTIQUE-APP — verification of the specified core

Shallow embedding of the repository's orchestration core (Tool-Call Client,
Step Executor, Issue Detector — described in the design spec; the Python
implementation of that core is not shipped under `src/`, so those parts are
modelled from the spec) together with the shipped Python utilities
(`update_products.py`) and the order-service routes
(`learnflow-app/app/backend/order-service/app/routes.py`).
-/

namespace Boutique

/-! ## Tool-Call Client session (C1)

Modelled from the spec: the Session data model — "{initialized flag, session
identifier (opaque, server-assigned), monotonic request-id counter}"; request
IDs come from a single monotonically increasing counter, one fresh ID per
request. -/

/-- Modelled from the spec: the Tool-Call Client's connection state. -/
structure Session where
  initialized : Bool := false
  sessionId : Option String := none
  requestId : Nat := 0
deriving Repr, DecidableEq

/-- Modelled from the spec: allocating the next request ID bumps the
monotonic counter and attaches the bumped value to the request. -/
def nextRequestId (s : Session) : Nat × Session :=
  (s.requestId + 1, { s with requestId := s.requestId + 1 })

/-- Modelled from the spec: the sequence of request IDs attached to `n`
consecutive requests issued from session state `s`. -/
def issueIds : Nat → Session → List Nat
  | 0, _ => []
  | n + 1, s =>
    let p := nextRequestId s
    p.1 :: issueIds n p.2

lemma mem_issueIds_lt {n : Nat} {s : Session} {x : Nat}
    (hx : x ∈ issueIds n s) : s.requestId < x := by
  induction n generalizing s with
  | zero => simp [issueIds] at hx
  | succ n ih =>
    simp only [issueIds, nextRequestId, List.mem_cons] at hx
    rcases hx with h | h
    · omega
    · have := ih h
      simp only at this
      omega

/-- C1: every sequence of request IDs issued by one client session is
strictly increasing with no repeats — each ID is greater than every ID
issued before it. -/
theorem requestIds_strictly_increasing (n : Nat) (s : Session) :
    (issueIds n s).Pairwise (· < ·) := by
  induction n generalizing s with
  | zero => simp [issueIds]
  | succ n ih =>
    simp only [issueIds, nextRequestId]
    refine List.Pairwise.cons (fun x hx => ?_) (ih _)
    have := mem_issueIds_lt hx
    simp only at this
    omega

/-! ## Step Executor (C2)

Modelled from the spec: `execute_scenario(scenario, base_url)` interprets an
ordered list of steps, producing one StepResult per step, "continuing past
individual step failures so later steps (and diagnostics) still run";
`overall_passed` is false if any step failed.  The per-action semantics is
abstracted as a step-interpretation function threaded through a scenario
context. -/

/-- StepResult: one record per executed step, as in the spec's data model. -/
structure StepResult where
  step_name : String
  action : String
  success : Bool
  duration : Nat := 0
  error : Option String := none
deriving Repr, DecidableEq

/-- Modelled from the spec: run each step in order against the context,
collecting one StepResult per step; never stops early. -/
def execSteps {Step Ctx : Type} (execStep : Step → Ctx → StepResult × Ctx) :
    List Step → Ctx → List StepResult
  | [], _ => []
  | st :: rest, c =>
    let p := execStep st c
    p.1 :: execSteps execStep rest p.2

/-- Modelled from the spec: `execute_scenario` returns
`(overall_passed, [StepResult...])` with `overall_passed` false if any step
failed. -/
def execute_scenario {Step Ctx : Type} (execStep : Step → Ctx → StepResult × Ctx)
    (steps : List Step) (ctx : Ctx) : Bool × List StepResult :=
  let results := execSteps execStep steps ctx
  (results.all (·.success), results)

lemma execSteps_length {Step Ctx : Type} (execStep : Step → Ctx → StepResult × Ctx)
    (steps : List Step) (ctx : Ctx) :
    (execSteps execStep steps ctx).length = steps.length := by
  induction steps generalizing ctx with
  | nil => rfl
  | cons st rest ih => simp [execSteps, ih]

/-- C2: `execute_scenario` always returns exactly one StepResult per step
(even when steps fail), and `overall_passed` is false whenever some
StepResult has `success = false`. -/
theorem execute_scenario_total {Step Ctx : Type}
    (execStep : Step → Ctx → StepResult × Ctx) (steps : List Step) (ctx : Ctx) :
    (execute_scenario execStep steps ctx).2.length = steps.length ∧
    ∀ r ∈ (execute_scenario execStep steps ctx).2, r.success = false →
      (execute_scenario execStep steps ctx).1 = false := by
  constructor
  · exact execSteps_length execStep steps ctx
  · intro r hr hfail
    simp only [execute_scenario] at hr ⊢
    exact List.all_eq_false.mpr ⟨r, hr, by simp [hfail]⟩

/-- A step interpreter used to witness C2: every step fails. -/
def c2FailingStep : Unit → Unit → StepResult × Unit :=
  fun _ _ => (⟨"s", "navigate", false, 0, none⟩, ())

/-- C2 witness: a two-step scenario whose steps both fail still yields two
StepResults, and the overall flag is false. -/
theorem execute_scenario_total_witness :
    (execute_scenario c2FailingStep [(), ()] ()).2.length = 2 ∧
    (execute_scenario c2FailingStep [(), ()] ()).1 = false := by
  have h := execute_scenario_total c2FailingStep [(), ()] ()
  refine ⟨h.1, h.2 ⟨"s", "navigate", false, 0, none⟩ (by decide) rfl⟩

/-! ## Response decoding (C3)

Modelled from the spec: "Response bodies may arrive either as a single JSON
document or as a server-sent-events stream containing `data:` lines; the
client must detect the framing by inspecting the payload prefix and, for
event-stream framing, extract the first JSON payload from the `data:`
lines."  Bodies are modelled as character lists; JSON parsing is abstracted
as a parameter. -/

/-- Strip leading and trailing whitespace (Python `str.strip()`). -/
def trimChars (l : List Char) : List Char :=
  ((l.dropWhile Char.isWhitespace).reverse.dropWhile Char.isWhitespace).reverse

/-- Split a body into lines at newline characters (Python `split("\n")`). -/
def splitLines : List Char → List (List Char)
  | [] => [[]]
  | c :: rest =>
    match splitLines rest with
    | [] => [[c]]
    | l :: ls => if c = '\n' then [] :: l :: ls else (c :: l) :: ls

/-- Modelled from the spec: event-stream framing is detected by inspecting
the payload prefix. -/
def isEventStream (body : List Char) : Bool :=
  "data:".toList.isPrefixOf body || "event:".toList.isPrefixOf body

/-- Modelled from the spec: the first JSON payload carried by the `data:`
lines of an event-stream body. -/
def firstDataPayload (body : List Char) : Option (List Char) :=
  (((splitLines body).filter (fun l => "data:".toList.isPrefixOf l)).head?).map
    (fun l => trimChars (l.drop 5))

/-- Modelled from the spec: decode a response body, switching on the framing
that the payload prefix indicates. -/
def decodeBody {J : Type} (parse : List Char → Option J) (body : List Char) :
    Option J :=
  if isEventStream body then (firstDataPayload body).bind parse
  else parse body

lemma splitLines_eq_single {l : List Char} (h : '\n' ∉ l) :
    splitLines l = [l] := by
  induction l with
  | nil => rfl
  | cons c rest ih =>
    have hc : c ≠ '\n' := fun hc => h (hc ▸ List.mem_cons_self c rest)
    have hrest : '\n' ∉ rest := fun hm => h (List.mem_cons_of_mem c hm)
    simp [splitLines, ih hrest, hc]

/-- C3: a body framed as a single `data:` line carrying document `d` decodes
to the same value as the plain body `d` (for any `d` that is a single-line,
whitespace-trimmed document not itself starting with an event-stream
prefix), and both equal the parse of `d`. -/
theorem sse_decode_eq_plain {J : Type} (parse : List Char → Option J)
    (d : List Char) (hnl : '\n' ∉ d)
    (hlead : d.dropWhile Char.isWhitespace = d)
    (htrail : d.reverse.dropWhile Char.isWhitespace = d.reverse)
    (hplain : isEventStream d = false) :
    decodeBody parse ("data: ".toList ++ d) = decodeBody parse d ∧
    decodeBody parse d = parse d := by
  have hbody : ¬ ('\n' ∈ "data: ".toList ++ d) := by
    intro hm
    rcases List.mem_append.mp hm with h | h
    · simp at h
    · exact hnl h
  have hsse : isEventStream ("data: ".toList ++ d) = true := by
    apply Bool.or_eq_true_iff.mpr
    left
    refine List.isPrefixOf_iff_prefix.mpr ?_
    refine List.IsPrefix.trans ?_ (List.prefix_append "data: ".toList d)
    exact ⟨[' '], rfl⟩
  have hpref : "data:".toList.isPrefixOf ("data: ".toList ++ d) = true := by
    refine List.isPrefixOf_iff_prefix.mpr ?_
    refine List.IsPrefix.trans ?_ (List.prefix_append "data: ".toList d)
    exact ⟨[' '], rfl⟩
  have htrim : trimChars (' ' :: d) = d := by
    unfold trimChars
    have h1 : (' ' :: d).dropWhile Char.isWhitespace = d.dropWhile Char.isWhitespace := by
      simp [List.dropWhile]
    rw [h1, hlead, htrail, List.reverse_reverse]
  constructor
  · rw [decodeBody, decodeBody, hsse, hplain]
    simp only [Bool.false_eq_true, if_false, if_true]
    rw [firstDataPayload, splitLines_eq_single hbody]
    simp only [List.filter, hpref, List.head?]
    have hdrop : List.drop 5 ("data: ".toList ++ d) = ' ' :: d := rfl
    show parse (trimChars (List.drop 5 ("data: ".toList ++ d))) = parse d
    rw [hdrop, htrim]
  · rw [decodeBody, hplain]
    simp

/-- The parse function used to witness C3. -/
def c3Parse (l : List Char) : Option String := some (String.mk l)

/-- The concrete document used to witness C3. -/
def c3Doc : List Char := "\x7b\"ok\":true\x7d".toList

/-- C3 witness: the single `data:` line carrying `{"ok":true}` decodes to
the same value as the plain body `{"ok":true}`. -/
theorem sse_decode_eq_plain_witness :
    decodeBody c3Parse ("data: ".toList ++ c3Doc) = decodeBody c3Parse c3Doc ∧
    decodeBody c3Parse c3Doc = some "\x7b\"ok\":true\x7d" := by
  have h := sse_decode_eq_plain c3Parse c3Doc (by decide) (by decide) (by decide)
    (by decide)
  exact ⟨h.1, by rw [h.2]; rfl⟩

/-! ## Variable substitution (C4)

Modelled from the spec: "any string-valued step parameter containing
`\x7b\x7bname\x7d\x7d` placeholders is resolved against `base_url` (reserved
name), previously stored variables, and previously stored element
references, in that precedence order; unresolved placeholders are left
verbatim (no error)." -/

/-- ScenarioContext: the per-scenario mutable bag of state from the spec's
data model. -/
structure ScenarioContext where
  base_url : String
  /-- named `variables` in the spec's data model (reserved word in Lean) -/
  vars : List (String × String) := []
  element_refs : List (String × String) := []
  console_logs : List String := []
  network_logs : List String := []
  screenshots : List String := []
deriving Repr, DecidableEq

def lbrace : Char := Char.ofNat 123

def rbrace : Char := Char.ofNat 125

/-- Modelled from the spec: resolve one placeholder name against `base_url`
(reserved), then stored variables, then stored element references. -/
def resolvePlaceholder (ctx : ScenarioContext) (name : String) : Option String :=
  if name = "base_url" then some ctx.base_url
  else
    match ctx.vars.lookup name with
    | some v => some v
    | none => ctx.element_refs.lookup name

/-- Scan for the first closing `\x7d\x7d`, returning the characters before
it and the remainder after it. -/
def splitAtClose : List Char → Option (List Char × List Char)
  | [] => none
  | c :: rest =>
    if c = rbrace ∧ rest.head? = some rbrace then some ([], rest.tail)
    else (splitAtClose rest).map (fun p => (c :: p.1, p.2))

/-- Modelled from the spec: one left-to-right substitution pass.  `fuel`
bounds the recursion (callers pass the input length, which always
suffices); on each `\x7b\x7b…\x7d\x7d` placeholder the resolved value (or
the placeholder verbatim, when the name resolves to nothing) is emitted and
scanning continues after the closing braces. -/
def substFuel (ctx : ScenarioContext) : Nat → List Char → List Char
  | 0, l => l
  | _ + 1, [] => []
  | _ + 1, [c] => [c]
  | f + 1, c1 :: c2 :: rest =>
    if c1 = lbrace ∧ c2 = lbrace then
      match splitAtClose rest with
      | some p =>
        (match resolvePlaceholder ctx (String.mk p.1) with
         | some v => v.toList
         | none => lbrace :: lbrace :: (p.1 ++ rbrace :: rbrace :: [])) ++
          substFuel ctx f p.2
      | none => c1 :: c2 :: substFuel ctx f rest
    else c1 :: substFuel ctx f (c2 :: rest)

/-- Substitute all placeholders in a character list. -/
def substChars (ctx : ScenarioContext) (l : List Char) : List Char :=
  substFuel ctx l.length l

/-- Substitute all placeholders in a string-valued step parameter. -/
def substituteVariables (ctx : ScenarioContext) (s : String) : String :=
  String.mk (substChars ctx s.toList)

lemma splitAtClose_sound {name s : List Char} (hn : rbrace ∉ name) :
    splitAtClose (name ++ rbrace :: rbrace :: s) = some (name, s) := by
  induction name with
  | nil => simp [splitAtClose]
  | cons a name' ih =>
    have ha : a ≠ rbrace := fun h => hn (h ▸ List.mem_cons_self a name')
    have hn' : rbrace ∉ name' := fun h => hn (List.mem_cons_of_mem a h)
    have hcond : ¬(a = rbrace ∧
        (name' ++ rbrace :: rbrace :: s).head? = some rbrace) :=
      fun h => ha h.1
    simp only [List.cons_append, splitAtClose, List.append_eq, if_neg hcond,
      ih hn', Option.map_some']

lemma splitAtClose_length :
    ∀ {l : List Char} {p : List Char × List Char},
      splitAtClose l = some p → p.2.length < l.length := by
  intro l
  induction l with
  | nil => intro p h; simp [splitAtClose] at h
  | cons c rest ih =>
    intro p h
    simp only [splitAtClose] at h
    by_cases hc : c = rbrace ∧ rest.head? = some rbrace
    · rw [if_pos hc] at h
      have : p.2 = rest.tail := by
        have := Option.some.inj h
        rw [← this]
      rw [this]
      have := List.length_tail rest
      simp only [List.length_cons]
      omega
    · rw [if_neg hc, Option.map_eq_some'] at h
      obtain ⟨q, hq, rfl⟩ := h
      have := ih hq
      simp only [List.length_cons]
      omega

lemma substFuel_irrel (ctx : ScenarioContext) :
    ∀ f g l, l.length ≤ f → l.length ≤ g →
      substFuel ctx f l = substFuel ctx g l := by
  intro f
  induction f with
  | zero =>
    intro g l hf _
    have : l = [] := List.eq_nil_of_length_eq_zero (Nat.le_zero.mp hf)
    subst this
    cases g <;> rfl
  | succ f ih =>
    intro g l hf hg
    cases l with
    | nil => cases g <;> rfl
    | cons c1 t =>
      cases t with
      | nil =>
        cases g with
        | zero => simp at hg
        | succ g => rfl
      | cons c2 rest =>
        cases g with
        | zero => simp at hg
        | succ g =>
          simp only [List.length_cons] at hf hg
          by_cases hbr : c1 = lbrace ∧ c2 = lbrace
          · cases hsp : splitAtClose rest with
            | none =>
              simp only [substFuel, if_pos hbr, hsp]
              rw [ih g rest (by omega) (by omega)]
            | some p =>
              have hp := splitAtClose_length hsp
              simp only [substFuel, if_pos hbr, hsp]
              rw [ih g p.2 (by omega) (by omega)]
          · simp only [substFuel, if_neg hbr]
            rw [ih g (c2 :: rest) (by simp only [List.length_cons]; omega)
              (by simp only [List.length_cons]; omega)]

lemma substChars_append_of_no_lbrace (ctx : ScenarioContext)
    (p l : List Char) (hp : lbrace ∉ p) :
    substChars ctx (p ++ l) = p ++ substChars ctx l := by
  induction p with
  | nil => simp
  | cons c p' ih =>
    have hc : c ≠ lbrace := fun h => hp (h ▸ List.mem_cons_self c p')
    have hp' : lbrace ∉ p' := fun h => hp (List.mem_cons_of_mem c h)
    cases hshape : p' ++ l with
    | nil =>
      obtain ⟨hp0, hl0⟩ := List.append_eq_nil.mp hshape
      subst hp0; subst hl0
      rfl
    | cons c2 rest =>
      show substFuel ctx (c :: (p' ++ l)).length (c :: (p' ++ l)) = _
      rw [hshape]
      simp only [List.length_cons, substFuel]
      rw [if_neg (fun h => hc h.1)]
      show c :: substChars ctx (c2 :: rest) = (c :: p') ++ substChars ctx l
      rw [← hshape, ih hp']
      simp

/-- C4: a string-valued parameter of shape `p ++ \x7b\x7bname\x7d\x7d ++ s`
(with `p` placeholder-free) substitutes to `p` followed by the resolution of
`name` — `base_url`, then variables, then element references, in that
precedence order, as computed by `resolvePlaceholder` — or by the
placeholder left verbatim when the name resolves in none of the three maps,
followed by the substitution of the rest.  No error is ever raised: the
function is total. -/
theorem variable_substitution (ctx : ScenarioContext) (p name s : List Char)
    (hp : lbrace ∉ p) (hn : rbrace ∉ name) :
    substChars ctx (p ++ lbrace :: lbrace :: (name ++ rbrace :: rbrace :: s)) =
      p ++ ((match resolvePlaceholder ctx (String.mk name) with
             | some v => v.toList
             | none => lbrace :: lbrace :: (name ++ rbrace :: rbrace :: [])) ++
        substChars ctx s) := by
  rw [substChars_append_of_no_lbrace ctx p _ hp]
  refine congrArg (p ++ ·) ?_
  show substFuel ctx (lbrace :: lbrace :: (name ++ rbrace :: rbrace :: s)).length
      (lbrace :: lbrace :: (name ++ rbrace :: rbrace :: s)) = _
  simp only [List.length_cons, substFuel, eq_self_iff_true, and_self, if_true,
    splitAtClose_sound hn]
  refine congrArg (fun x => _ ++ x) ?_
  refine substFuel_irrel ctx _ _ s ?_ (Nat.le_refl _)
  simp only [List.length_append, List.length_cons]
  omega

/-- The scenario context used to witness C4: variable `foo=bar`. -/
def c4Ctx : ScenarioContext :=
  { base_url := "http://localhost:3000", vars := [("foo", "bar")] }

/-- C4 witness: with variable `foo=bar`, the parameter
`\x7b\x7bfoo\x7d\x7d/\x7b\x7bmissing\x7d\x7d` substitutes to
`bar/\x7b\x7bmissing\x7d\x7d` — the unresolved placeholder passes through
verbatim. -/
theorem variable_substitution_witness :
    substChars c4Ctx "\x7b\x7bfoo\x7d\x7d/\x7b\x7bmissing\x7d\x7d".toList =
      "bar/\x7b\x7bmissing\x7d\x7d".toList := by
  have h := variable_substitution c4Ctx [] "foo".toList
    "/\x7b\x7bmissing\x7d\x7d".toList (by decide) (by decide)
  rw [show ("\x7b\x7bfoo\x7d\x7d/\x7b\x7bmissing\x7d\x7d".toList : List Char) =
    [] ++ lbrace :: lbrace :: ("foo".toList ++ rbrace :: rbrace ::
      "/\x7b\x7bmissing\x7d\x7d".toList) from rfl, h]
  rfl

/-! ## Issue Detector (C5, C6, C7)

Modelled from the spec: the Issue data model, the network-failure probe's
substring classification ("classify by substring matching — `404` → `high`;
any of `500/502/503/504` → `critical`; `timeout`/`failed` → `high`;
`cors`/`cross-origin` → `high`", checked in that order), and `detectAll()`
fanning out to every probe and concatenating their Issues, with a failing
probe contributing zero Issues. -/

inductive IssueCategory
  | consoleError
  | networkFailure
  | brokenImage
  | missingAltText
  | layoutProblem
  | performanceIssue
  | accessibilityIssue
deriving Repr, DecidableEq

inductive IssueSeverity
  | critical
  | high
  | medium
  | low
deriving Repr, DecidableEq

/-- An Issue minus its creation timestamp. -/
structure IssueCore where
  category : IssueCategory
  severity : IssueSeverity
  description : String
  auto_fix : Bool := false
  fix_code : Option String := none
  confidence : ℚ := 1
deriving Repr, DecidableEq

/-- Issue: the spec's Issue record; the timestamp is attached when the
probe's finding is recorded. -/
structure Issue extends IssueCore where
  timestamp : Nat
deriving Repr, DecidableEq

/-- True when `pat` occurs as a contiguous substring of `hay`. -/
def containsSub : List Char → List Char → Bool
  | [], pat => pat.isEmpty
  | c :: rest, pat => pat.isPrefixOf (c :: rest) || containsSub rest pat

/-- Substring containment on strings (Python `pat in line`). -/
def containsStr (line pat : String) : Bool :=
  containsSub line.toList pat.toList

/-- The Issue the network-failure probe records for a line matching the
`404` pattern. -/
def issue404 (line : String) : IssueCore :=
  { category := .networkFailure, severity := .high,
    description := "HTTP 404: " ++ line }

/-- The Issue recorded for a line matching any of the `500/502/503/504`
patterns. -/
def issue5xx (line : String) : IssueCore :=
  { category := .networkFailure, severity := .critical,
    description := "Server error: " ++ line }

/-- The Issue recorded for a line matching the `timeout`/`failed`
patterns. -/
def issueTimeout (line : String) : IssueCore :=
  { category := .networkFailure, severity := .high,
    description := "Request failure: " ++ line }

/-- The Issue recorded for a line matching the `cors`/`cross-origin`
patterns. -/
def issueCors (line : String) : IssueCore :=
  { category := .networkFailure, severity := .high,
    description := "CORS issue: " ++ line }

/-- Modelled from the spec: the network-failure probe's per-line
classification "by substring matching — `404` → `high`; any of
`500/502/503/504` → `critical`; `timeout`/`failed` → `high`;
`cors`/`cross-origin` → `high`".  Each listed pattern group is checked
independently and contributes exactly one Issue when it matches (the spec
imposes no match order or exclusivity, and asserts that a line containing
`503` always yields exactly one critical Issue regardless of surrounding
text). -/
def classifyNetworkLine (line : String) : List IssueCore :=
  (if containsStr line "404" then [issue404 line] else []) ++
  (if containsStr line "500" || containsStr line "502" ||
      containsStr line "503" || containsStr line "504" then
    [issue5xx line] else []) ++
  (if containsStr line "timeout" || containsStr line "failed" then
    [issueTimeout line] else []) ++
  (if containsStr line "cors" || containsStr line "cross-origin" then
    [issueCors line] else [])

lemma append_left_ne (p q line : String) (h : p.length ≠ q.length) :
    ¬ (p ++ line = q ++ line) := by
  intro he
  apply h
  have hl := congrArg String.length he
  rw [String.length_append, String.length_append] at hl
  omega

lemma mem_ite_singleton {α : Type} {i x : α} {c : Prop} [Decidable c]
    (h : i ∈ (if c then [x] else [])) : i = x := by
  by_cases hc : c
  · rw [if_pos hc] at h
    simpa using h
  · rw [if_neg hc] at h
    simp at h

/-- C5: the probe's severity classification is a pure deterministic function
of the line's substrings — lines with the same pattern flags classify to
the same category/severity outcome, every Issue is a network-failure Issue,
a line containing any of `500/502/503/504` yields exactly one critical
Issue (the only critical one, regardless of surrounding text), a line
containing `404` yields exactly one high `404` Issue, and lines containing
`timeout`/`failed` or `cors`/`cross-origin` yield exactly one high Issue
each for those patterns, again regardless of surrounding text. -/
theorem classifyNetworkLine_severity (line : String) :
    (∀ i ∈ classifyNetworkLine line,
      i.category = IssueCategory.networkFailure) ∧
    ((containsStr line "500" || containsStr line "502" ||
        containsStr line "503" || containsStr line "504") = true →
      ((classifyNetworkLine line).filter
        (fun i => i.severity == IssueSeverity.critical)).length = 1 ∧
      (classifyNetworkLine line).count (issue5xx line) = 1) ∧
    (containsStr line "404" = true →
      (classifyNetworkLine line).count (issue404 line) = 1 ∧
      (issue404 line).severity = IssueSeverity.high) ∧
    ((containsStr line "timeout" || containsStr line "failed") = true →
      (classifyNetworkLine line).count (issueTimeout line) = 1 ∧
      (issueTimeout line).severity = IssueSeverity.high) ∧
    ((containsStr line "cors" || containsStr line "cross-origin") = true →
      (classifyNetworkLine line).count (issueCors line) = 1 ∧
      (issueCors line).severity = IssueSeverity.high) ∧
    (∀ line₂ : String,
      containsStr line "404" = containsStr line₂ "404" →
      containsStr line "500" = containsStr line₂ "500" →
      containsStr line "502" = containsStr line₂ "502" →
      containsStr line "503" = containsStr line₂ "503" →
      containsStr line "504" = containsStr line₂ "504" →
      containsStr line "timeout" = containsStr line₂ "timeout" →
      containsStr line "failed" = containsStr line₂ "failed" →
      containsStr line "cors" = containsStr line₂ "cors" →
      containsStr line "cross-origin" = containsStr line₂ "cross-origin" →
      (classifyNetworkLine line).map (fun i => (i.category, i.severity)) =
        (classifyNetworkLine line₂).map (fun i => (i.category, i.severity))) := by
  have h45 : ¬ ("HTTP 404: " ++ line = "Server error: " ++ line) :=
    append_left_ne _ _ line (by decide)
  have h4t : ¬ ("HTTP 404: " ++ line = "Request failure: " ++ line) :=
    append_left_ne _ _ line (by decide)
  have h4c : ¬ ("HTTP 404: " ++ line = "CORS issue: " ++ line) :=
    append_left_ne _ _ line (by decide)
  have h54 : ¬ ("Server error: " ++ line = "HTTP 404: " ++ line) :=
    append_left_ne _ _ line (by decide)
  have h5t : ¬ ("Server error: " ++ line = "Request failure: " ++ line) :=
    append_left_ne _ _ line (by decide)
  have h5c : ¬ ("Server error: " ++ line = "CORS issue: " ++ line) :=
    append_left_ne _ _ line (by decide)
  have ht4 : ¬ ("Request failure: " ++ line = "HTTP 404: " ++ line) :=
    append_left_ne _ _ line (by decide)
  have ht5 : ¬ ("Request failure: " ++ line = "Server error: " ++ line) :=
    append_left_ne _ _ line (by decide)
  have htc : ¬ ("Request failure: " ++ line = "CORS issue: " ++ line) :=
    append_left_ne _ _ line (by decide)
  have hc4 : ¬ ("CORS issue: " ++ line = "HTTP 404: " ++ line) :=
    append_left_ne _ _ line (by decide)
  have hc5 : ¬ ("CORS issue: " ++ line = "Server error: " ++ line) :=
    append_left_ne _ _ line (by decide)
  have hct : ¬ ("CORS issue: " ++ line = "Request failure: " ++ line) :=
    append_left_ne _ _ line (by decide)
  refine ⟨?_, ?_, ?_, ?_, ?_, ?_⟩
  · intro i hi
    simp only [classifyNetworkLine, List.append_assoc, List.mem_append] at hi
    rcases hi with h | h | h | h <;> rw [mem_ite_singleton h] <;> rfl
  · intro hb
    constructor
    · simp only [classifyNetworkLine, hb, if_true, List.filter_append]
      by_cases h4 : containsStr line "404" = true <;>
        by_cases hc : (containsStr line "timeout" ||
          containsStr line "failed") = true <;>
          by_cases hd : (containsStr line "cors" ||
            containsStr line "cross-origin") = true <;>
            simp [h4, hc, hd, issue404, issue5xx, issueTimeout, issueCors]
    · simp only [classifyNetworkLine, hb, if_true, List.count_append]
      by_cases h4 : containsStr line "404" = true <;>
        by_cases hc : (containsStr line "timeout" ||
          containsStr line "failed") = true <;>
          by_cases hd : (containsStr line "cors" ||
            containsStr line "cross-origin") = true <;>
            simp [h4, hc, hd, List.count_cons, beq_iff_eq, issue404, issue5xx,
              issueTimeout, issueCors, IssueCore.mk.injEq, h45, h4t, h4c, h54,
              h5t, h5c, ht4, ht5, htc, hc4, hc5, hct]
  · intro h4
    refine ⟨?_, rfl⟩
    simp only [classifyNetworkLine, h4, if_true, List.count_append]
    by_cases hb : (containsStr line "500" || containsStr line "502" ||
      containsStr line "503" || containsStr line "504") = true <;>
      by_cases hc : (containsStr line "timeout" ||
        containsStr line "failed") = true <;>
        by_cases hd : (containsStr line "cors" ||
          containsStr line "cross-origin") = true <;>
          simp [hb, hc, hd, List.count_cons, beq_iff_eq, issue404, issue5xx,
            issueTimeout, issueCors, IssueCore.mk.injEq, h45, h4t, h4c, h54,
            h5t, h5c, ht4, ht5, htc, hc4, hc5, hct]
  · intro hc
    refine ⟨?_, rfl⟩
    simp only [classifyNetworkLine, hc, if_true, List.count_append]
    by_cases h4 : containsStr line "404" = true <;>
      by_cases hb : (containsStr line "500" || containsStr line "502" ||
        containsStr line "503" || containsStr line "504") = true <;>
        by_cases hd : (containsStr line "cors" ||
          containsStr line "cross-origin") = true <;>
          simp [h4, hb, hd, List.count_cons, beq_iff_eq, issue404, issue5xx,
            issueTimeout, issueCors, IssueCore.mk.injEq, h45, h4t, h4c, h54,
            h5t, h5c, ht4, ht5, htc, hc4, hc5, hct]
  · intro hd
    refine ⟨?_, rfl⟩
    simp only [classifyNetworkLine, hd, if_true, List.count_append]
    by_cases h4 : containsStr line "404" = true <;>
      by_cases hb : (containsStr line "500" || containsStr line "502" ||
        containsStr line "503" || containsStr line "504") = true <;>
        by_cases hc : (containsStr line "timeout" ||
          containsStr line "failed") = true <;>
          simp [h4, hb, hc, List.count_cons, beq_iff_eq, issue404, issue5xx,
            issueTimeout, issueCors, IssueCore.mk.injEq, h45, h4t, h4c, h54,
            h5t, h5c, ht4, ht5, htc, hc4, hc5, hct]
  · intro line₂ h1 h2 h3 h4 h5 h6 h7 h8 h9
    simp only [classifyNetworkLine, ← h1, ← h2, ← h3, ← h4, ← h5, ← h6, ← h7,
      ← h8, ← h9, List.map_append]
    split_ifs <;> simp [issue404, issue5xx, issueTimeout, issueCors]

/-- C5 witness: `GET /api 503 Service Unavailable` yields exactly one
critical Issue; the mixed line `GET /api 404 then 503` still yields exactly
one critical Issue and exactly one high `404` Issue. -/
theorem classifyNetworkLine_severity_witness :
    ((classifyNetworkLine "GET /api 503 Service Unavailable").filter
      (fun i => i.severity == IssueSeverity.critical)).length = 1 ∧
    ((classifyNetworkLine "GET /api 404 then 503").filter
      (fun i => i.severity == IssueSeverity.critical)).length = 1 ∧
    (classifyNetworkLine "GET /api 404 then 503").count
      (issue404 "GET /api 404 then 503") = 1 := by
  refine ⟨((classifyNetworkLine_severity
      "GET /api 503 Service Unavailable").2.1 (by decide)).1,
    ((classifyNetworkLine_severity "GET /api 404 then 503").2.1
      (by decide)).1,
    ((classifyNetworkLine_severity "GET /api 404 then 503").2.2.1
      (by decide)).1⟩

/-- Run one probe, stamping its findings with the detection time; a probe
that fails contributes no Issues. -/
def runProbe {σ : Type} (t : Nat) (probe : σ → Except String (List IssueCore))
    (st : σ) : List Issue :=
  match probe st with
  | Except.ok issues => issues.map (fun c => ⟨c, t⟩)
  | Except.error _ => []

/-- Modelled from the spec: `detectAll()` fans out to every probe, waits for
all to finish, and returns the concatenated Issue list; an individual
probe's failure is caught and treated as "probe found nothing this
round." -/
def detectAll {σ : Type} (probes : List (σ → Except String (List IssueCore)))
    (st : σ) (t : Nat) : List Issue :=
  (probes.map (fun p => runProbe t p st)).flatten

/-- C6: `detectAll` returns exactly the concatenation of the Issue lists of
the probes that succeeded — a failing probe contributes zero Issues, and a
failing probe placed anywhere in the list does not prevent the probes
before or after it from contributing theirs. -/
theorem detectAll_partial_results {σ : Type}
    (probes : List (σ → Except String (List IssueCore))) (st : σ) (t : Nat) :
    detectAll probes st t =
      ((probes.filterMap (fun p => (p st).toOption)).map
        (List.map (fun c => ⟨c, t⟩))).flatten ∧
    ∀ (pre post : List (σ → Except String (List IssueCore)))
      (bad : σ → Except String (List IssueCore)) (msg : String),
      bad st = Except.error msg →
      detectAll (pre ++ bad :: post) st t =
        detectAll pre st t ++ detectAll post st t := by
  constructor
  · induction probes with
    | nil => rfl
    | cons p rest ih =>
      have hhead : detectAll (p :: rest) st t =
          runProbe t p st ++ detectAll rest st t := rfl
      rw [hhead, ih]
      cases hp : p st with
      | ok issues =>
        have h1 : runProbe t p st = issues.map (fun c => ⟨c, t⟩) := by
          simp [runProbe, hp]
        have h2 : (p :: rest).filterMap (fun p => (p st).toOption) =
            issues :: rest.filterMap (fun p => (p st).toOption) := by
          simp [List.filterMap_cons, hp, Except.toOption]
        rw [h1, h2, List.map_cons, List.flatten_cons]
      | error m =>
        have h1 : runProbe t p st = [] := by simp [runProbe, hp]
        have h2 : (p :: rest).filterMap (fun p => (p st).toOption) =
            rest.filterMap (fun p => (p st).toOption) := by
          simp [List.filterMap_cons, hp, Except.toOption]
        rw [h1, h2, List.nil_append]
  · intro pre post bad msg hbad
    simp only [detectAll, List.map_append, List.map_cons,
      List.flatten_append, List.flatten_cons, runProbe, hbad,
      List.nil_append]

/-- A succeeding probe used to witness C6. -/
def c6Good : Unit → Except String (List IssueCore) :=
  fun _ => Except.ok
    [{ category := .brokenImage, severity := .medium, description := "img" }]

/-- A failing probe used to witness C6. -/
def c6Bad : Unit → Except String (List IssueCore) :=
  fun _ => Except.error "boom"

/-- C6 witness: with a failing probe between two succeeding ones, both
succeeding probes still contribute their Issues. -/
theorem detectAll_partial_results_witness :
    detectAll [c6Good, c6Bad, c6Good] () 7 =
      detectAll [c6Good] () 7 ++ detectAll [c6Good] () 7 ∧
    (detectAll [c6Good, c6Bad, c6Good] () 7).length = 2 := by
  refine ⟨(detectAll_partial_results [c6Good, c6Bad, c6Good] () 7).2
    [c6Good] [c6Good] c6Bad "boom" rfl, ?_⟩
  rfl

/-- C7: re-running `detectAll` against unchanged page state yields the same
Issues — same categories, severities, descriptions and counts — differing
at most in their timestamps. -/
theorem detectAll_idempotent {σ : Type}
    (probes : List (σ → Except String (List IssueCore))) (st : σ)
    (t₁ t₂ : Nat) :
    (detectAll probes st t₁).map Issue.toIssueCore =
      (detectAll probes st t₂).map Issue.toIssueCore := by
  induction probes with
  | nil => rfl
  | cons p rest ih =>
    simp only [detectAll, List.map_cons, List.flatten_cons, List.map_append]
      at ih ⊢
    rw [ih]
    refine congrArg (· ++ _) ?_
    cases hp : p st with
    | ok issues => simp [runProbe, hp]
    | error m => simp [runProbe, hp]

/-! ## update_products.py (C8)

Embedding of `src/update_products.py`: `main` walks the Unsplash image-URL
matches of `products.ts` in order, keeping a 1-based `product_counter`, maps
counters 1–10/11–20/21–30/31–40 to the four category folders with
`image_index = counter - start + 1`, rewrites those matches to
`image: "<local path>"`, and leaves any match outside every range
unchanged.  The regex/file plumbing is abstracted to the ordered list of
matched texts. -/

/-- Python `f"{image_index:02d}"`: two-digit zero-padded rendering (indices
here are 1–10, so one pad digit at most). -/
def pad2 (n : Nat) : String :=
  if n < 10 then "0" ++ toString n else toString n

/-- Function `get_local_image_path` from update_products.py. -/
def get_local_image_path (category_name : String) (image_index : Nat) : String :=
  "/images/" ++ category_name ++ "/" ++ category_name ++ "-" ++
    pad2 image_index ++ ".jpg"

/-- One entry of `category_ranges` (the Python `end` bound is `stop` here:
`end` is a Lean keyword). -/
structure CategoryRange where
  display : String
  folder : String
  start : Nat
  stop : Nat
deriving Repr, DecidableEq

/-- Table `category_ranges` from update_products.py's `main`. -/
def category_ranges : List CategoryRange :=
  [⟨"Fancy Suits", "fancy-suits", 1, 10⟩,
   ⟨"Shalwar Qameez", "shalwar-qameez", 11, 20⟩,
   ⟨"Cotton Suits", "cotton-suits", 21, 30⟩,
   ⟨"Designer Brands", "designer-brands", 31, 40⟩]

/-- The loop body of `main` for one match: the first category range
containing the counter determines the replacement text; a counter in no
range leaves the matched text unchanged. -/
def updateUrl (counter : Nat) (url : String) : String :=
  match category_ranges.find?
      (fun r => decide (r.start ≤ counter ∧ counter ≤ r.stop)) with
  | some r =>
    "image: \"" ++ get_local_image_path r.folder (counter - r.start + 1) ++ "\""
  | none => url

/-- Loop of `main` over the matches: `product_counter` is incremented before each match
is processed. -/
def updateMatchesFrom : Nat → List String → List String
  | _, [] => []
  | k, u :: rest => updateUrl (k + 1) u :: updateMatchesFrom (k + 1) rest

/-- Effect of `main` on the ordered list of matched
`image: "https://images.unsplash.com/…"` texts. -/
def updateMatches (urls : List String) : List String :=
  updateMatchesFrom 0 urls

/-- The folder the claim assigns to the n-th match. -/
def claim_folder (n : Nat) : String :=
  if n ≤ 10 then "fancy-suits"
  else if n ≤ 20 then "shalwar-qameez"
  else if n ≤ 30 then "cotton-suits"
  else "designer-brands"

/-- The local path the claim assigns to the n-th match:
`/images/<folder>/<folder>-<NN>.jpg` with `NN` the two-digit zero-padded
`((n-1) mod 10) + 1`. -/
def claim_path (n : Nat) : String :=
  "/images/" ++ claim_folder n ++ "/" ++ claim_folder n ++ "-" ++
    pad2 ((n - 1) % 10 + 1) ++ ".jpg"

lemma updateMatchesFrom_length (k : Nat) (urls : List String) :
    (updateMatchesFrom k urls).length = urls.length := by
  induction urls generalizing k with
  | nil => rfl
  | cons u rest ih => simp [updateMatchesFrom, ih]

lemma updateMatchesFrom_getD (k : Nat) (urls : List String) (i : Nat)
    (h : i < urls.length) :
    (updateMatchesFrom k urls).getD i "" =
      updateUrl (k + i + 1) (urls.getD i "") := by
  induction urls generalizing k i with
  | nil => simp at h
  | cons u rest ih =>
    cases i with
    | zero => simp [updateMatchesFrom]
    | succ i =>
      simp only [updateMatchesFrom, List.getD_cons_succ]
      rw [ih (k + 1) i (by simpa using h)]
      congr 1
      omega

lemma updateUrl_in_range (n : Nat) (u : String) (h1 : 1 ≤ n) (h40 : n ≤ 40) :
    updateUrl n u = "image: \"" ++ claim_path n ++ "\"" := by
  interval_cases n <;> rfl

lemma updateUrl_out_of_range (n : Nat) (u : String) (h : 40 < n) :
    updateUrl n u = u := by
  have hfind : category_ranges.find?
      (fun r => decide (r.start ≤ n ∧ n ≤ r.stop)) = none := by
    rw [List.find?_eq_none]
    intro r hr
    fin_cases hr <;> simp only [decide_eq_true_eq, not_and, not_le] <;>
      intro h1 <;> omega
  unfold updateUrl
  rw [hfind]

/-- C8: `main` replaces the n-th matched Unsplash URL (1 ≤ n ≤ 40) with
`image: "/images/<folder>/<folder>-<NN>.jpg"` where the folder is
fancy-suits for 1–10, shalwar-qameez for 11–20, cotton-suits for 21–30,
designer-brands for 31–40 and `NN` is the two-digit `((n-1) mod 10) + 1`;
every match with n > 40 is left unchanged, and the match count is
preserved. -/
theorem update_products_mapping (urls : List String) :
    (updateMatches urls).length = urls.length ∧
    (∀ n, 1 ≤ n → n ≤ 40 → n ≤ urls.length →
      (updateMatches urls).getD (n - 1) "" =
        "image: \"" ++ claim_path n ++ "\"") ∧
    (∀ n, 40 < n → n ≤ urls.length →
      (updateMatches urls).getD (n - 1) "" = urls.getD (n - 1) "") := by
  refine ⟨updateMatchesFrom_length 0 urls, ?_, ?_⟩
  · intro n hn1 hn40 hnlen
    rw [updateMatches, updateMatchesFrom_getD 0 urls (n - 1) (by omega)]
    rw [show 0 + (n - 1) + 1 = n from by omega]
    exact updateUrl_in_range n _ hn1 hn40
  · intro n hn40 hnlen
    rw [updateMatches, updateMatchesFrom_getD 0 urls (n - 1) (by omega)]
    rw [show 0 + (n - 1) + 1 = n from by omega]
    exact updateUrl_out_of_range n _ hn40

/-- C8 witness: over 41 matches, match 1 becomes the fancy-suits-01 local
path and match 41 is left unchanged. -/
theorem update_products_mapping_witness :
    (updateMatches (List.replicate 41 "u")).getD 0 "" =
      "image: \"/images/fancy-suits/fancy-suits-01.jpg\"" ∧
    (updateMatches (List.replicate 41 "u")).getD 40 "" = "u" := by
  have h := update_products_mapping (List.replicate 41 "u")
  exact ⟨(h.2.1 1 (by decide) (by decide) (by decide)).trans (by rfl),
         (h.2.2 41 (by decide) (by decide)).trans (by rfl)⟩

/-! ## Order-service authorization header (C9)

Embedding of `get_user_id_from_header` from
`learnflow-app/app/backend/order-service/app/routes.py`: if the header is
truthy, split it on whitespace; with exactly two parts whose first part
lowercases to `bearer`, return `int(parts[1].split("-")[0])` when the token
contains `-` (401 if that prefix fails to parse), else return 1; in every
other case raise HTTP 401. -/

/-- Python `str.split()` with no separator: split on whitespace runs,
dropping empty pieces.  `cur` accumulates the current word reversed. -/
def splitWhitespaceGo : List Char → List Char → List (List Char)
  | [], cur => if cur.isEmpty then [] else [cur.reverse]
  | c :: rest, cur =>
    if c.isWhitespace then
      if cur.isEmpty then splitWhitespaceGo rest []
      else cur.reverse :: splitWhitespaceGo rest []
    else splitWhitespaceGo rest (c :: cur)

/-- Python `s.split()`. -/
def pySplit (s : String) : List String :=
  (splitWhitespaceGo s.toList []).map String.mk

/-- Python `s.lower()` (ASCII letters; header tokens here are ASCII). -/
def lowerStr (s : String) : String :=
  String.mk (s.toList.map Char.toLower)

def digitToNat (c : Char) : Nat := c.toNat - 48

/-- Digit tail of a Python integer literal: digits, with single underscores
allowed between digits. -/
def parseDigRest : Nat → List Char → Option Nat
  | acc, [] => some acc
  | acc, c :: rest =>
    if c.isDigit then parseDigRest (10 * acc + digitToNat c) rest
    else if c = '_' then
      match rest with
      | d :: rest2 =>
        if d.isDigit then parseDigRest (10 * acc + digitToNat d) rest2
        else none
      | [] => none
    else none

def parseUnsigned : List Char → Option Nat
  | [] => none
  | c :: rest => if c.isDigit then parseDigRest (digitToNat c) rest else none

/-- Python `int(s)` on a whitespace-free token: optional sign, then a
non-empty digit string with single underscores between digits; `none` on
any other input (the `ValueError` path). -/
def pyInt (l : List Char) : Option Int :=
  match l with
  | [] => none
  | c :: rest =>
    if c = '-' then (parseUnsigned rest).map (fun n => -(n : Int))
    else if c = '+' then (parseUnsigned rest).map (fun n => (n : Int))
    else (parseUnsigned l).map (fun n => (n : Int))

/-- Outcome of `get_user_id_from_header`: a user id, or HTTP 401. -/
inductive AuthResult
  | ok (user_id : Int)
  | unauthorized
deriving Repr, DecidableEq

/-- Function `get_user_id_from_header` from order-service routes.py; `none` models
an absent header; the empty string is the only falsy present header. -/
def get_user_id_from_header (authorization : Option String) : AuthResult :=
  match authorization with
  | none => .unauthorized
  | some auth =>
    if auth = "" then .unauthorized
    else
      match pySplit auth with
      | [p0, p1] =>
        if lowerStr p0 = "bearer" then
          if '-' ∈ p1.toList then
            match pyInt (p1.toList.takeWhile (fun c => c != '-')) with
            | some k => .ok k
            | none => .unauthorized
          else .ok 1
        else .unauthorized
      | _ => .unauthorized

lemma pySplit_empty : pySplit "" = [] := rfl

lemma get_user_id_eval {s : String} {b t : String}
    (hsp : pySplit s = [b, t]) :
    get_user_id_from_header (some s) =
      (if lowerStr b = "bearer" then
        if '-' ∈ t.toList then
          match pyInt (t.toList.takeWhile (fun c => c != '-')) with
          | some k => AuthResult.ok k
          | none => AuthResult.unauthorized
        else AuthResult.ok 1
      else AuthResult.unauthorized) := by
  have hs0 : s ≠ "" := by
    intro h
    rw [h, pySplit_empty] at hsp
    exact List.noConfusion hsp
  simp only [get_user_id_from_header, if_neg hs0, hsp]

/-- C9: the order-service's header parser returns 401 exactly when the
header is absent, does not split into exactly two whitespace-separated
parts, has a first part not lowercasing to `bearer`, or has a token
containing `-` whose prefix before the first `-` does not parse as an
integer; a bearer token without `-` authenticates as user 1 regardless of
its content, and a token `<k>-…` authenticates as user `k` — no signature
is ever verified. -/
theorem get_user_id_spec :
    get_user_id_from_header none = AuthResult.unauthorized ∧
    (∀ s b t, pySplit s = [b, t] → lowerStr b = "bearer" →
      '-' ∉ t.toList →
      get_user_id_from_header (some s) = AuthResult.ok 1) ∧
    (∀ s b t (k : Int), pySplit s = [b, t] → lowerStr b = "bearer" →
      '-' ∈ t.toList →
      pyInt (t.toList.takeWhile (fun c => c != '-')) = some k →
      get_user_id_from_header (some s) = AuthResult.ok k) ∧
    (∀ s, get_user_id_from_header (some s) = AuthResult.unauthorized ↔
      ¬ ∃ b t, pySplit s = [b, t] ∧ lowerStr b = "bearer" ∧
        ('-' ∈ t.toList →
          pyInt (t.toList.takeWhile (fun c => c != '-')) ≠ none)) := by
  refine ⟨rfl, ?_, ?_, ?_⟩
  · intro s b t hsp hlow hdash
    rw [get_user_id_eval hsp, if_pos hlow, if_neg hdash]
  · intro s b t k hsp hlow hdash hint
    rw [get_user_id_eval hsp, if_pos hlow, if_pos hdash, hint]
  · intro s
    cases hsp : pySplit s with
    | nil =>
      have hval : get_user_id_from_header (some s) = AuthResult.unauthorized := by
        by_cases hs0 : s = ""
        · rw [hs0]; rfl
        · simp only [get_user_id_from_header, if_neg hs0, hsp]
      refine iff_of_true hval ?_
      rintro ⟨b, t, heq, -, -⟩
      exact List.noConfusion heq
    | cons b rest =>
      cases rest with
      | nil =>
        have hval : get_user_id_from_header (some s) = AuthResult.unauthorized := by
          have hs0 : s ≠ "" := by
            intro h; rw [h, pySplit_empty] at hsp; exact List.noConfusion hsp
          simp only [get_user_id_from_header, if_neg hs0, hsp]
        refine iff_of_true hval ?_
        rintro ⟨b', t', heq, -, -⟩
        simp at heq
      | cons t rest2 =>
        cases rest2 with
        | cons c rest3 =>
          have hval : get_user_id_from_header (some s) = AuthResult.unauthorized := by
            have hs0 : s ≠ "" := by
              intro h; rw [h, pySplit_empty] at hsp; exact List.noConfusion hsp
            simp only [get_user_id_from_header, if_neg hs0, hsp]
          refine iff_of_true hval ?_
          rintro ⟨b', t', heq, -, -⟩
          simp at heq
        | nil =>
          by_cases hlow : lowerStr b = "bearer"
          · by_cases hdash : '-' ∈ t.toList
            · cases hint : pyInt (t.toList.takeWhile (fun c => c != '-')) with
              | some k =>
                have hval : get_user_id_from_header (some s) = AuthResult.ok k := by
                  rw [get_user_id_eval hsp, if_pos hlow, if_pos hdash, hint]
                refine iff_of_false (by rw [hval]; exact fun h => AuthResult.noConfusion h) ?_
                intro hne
                exact hne ⟨b, t, rfl, hlow, fun _ => by rw [hint]; exact fun h => Option.noConfusion h⟩
              | none =>
                have hval : get_user_id_from_header (some s) = AuthResult.unauthorized := by
                  rw [get_user_id_eval hsp, if_pos hlow, if_pos hdash, hint]
                refine iff_of_true hval ?_
                rintro ⟨b', t', heq, hlow', himp⟩
                obtain ⟨rfl, rfl⟩ : b' = b ∧ t' = t := by
                  simpa using heq.symm
                exact himp hdash hint
            · have hval : get_user_id_from_header (some s) = AuthResult.ok 1 := by
                rw [get_user_id_eval hsp, if_pos hlow, if_neg hdash]
              refine iff_of_false (by rw [hval]; exact fun h => AuthResult.noConfusion h) ?_
              intro hne
              exact hne ⟨b, t, rfl, hlow, fun h => absurd h hdash⟩
          · have hval : get_user_id_from_header (some s) = AuthResult.unauthorized := by
              rw [get_user_id_eval hsp, if_neg hlow]
            refine iff_of_true hval ?_
            rintro ⟨b', t', heq, hlow', -⟩
            obtain ⟨rfl, rfl⟩ : b' = b ∧ t' = t := by
              simpa using heq.symm
            exact hlow hlow'

/-- C9 witness: `Bearer 42-session` authenticates as user 42 and
`bearer sometoken` (no dash) as user 1. -/
theorem get_user_id_spec_witness :
    get_user_id_from_header (some "Bearer 42-session") = AuthResult.ok 42 ∧
    get_user_id_from_header (some "bearer sometoken") = AuthResult.ok 1 := by
  refine ⟨get_user_id_spec.2.2.1 "Bearer 42-session" "Bearer" "42-session" 42
    (by rfl) (by rfl) (by decide) (by rfl), ?_⟩
  exact get_user_id_spec.2.1 "bearer sometoken" "bearer" "sometoken"
    (by rfl) (by rfl) (by decide)

/-! ## Order-service checkout (C10)

Embedding of `checkout` from
`learnflow-app/app/backend/order-service/app/routes.py`: fetch the user's
cart; 400 if absent or empty; otherwise create one pending Order totalling
`Σ price·quantity`, one OrderItem per cart item, and delete every cart
item.  Decimal prices are modelled as rationals; the database session is a
record of carts, orders and order items. -/

structure CartItem where
  id : Nat
  cart_id : Nat
  product_id : Nat
  quantity : Nat
  price : ℚ
deriving Repr, DecidableEq

structure Cart where
  id : Nat
  user_id : Nat
  items : List CartItem
deriving Repr, DecidableEq

structure Order where
  id : Nat
  user_id : Nat
  status : String
  total_amount : ℚ
  shipping_address : String
  payment_status : String
deriving Repr, DecidableEq

structure OrderItem where
  order_id : Nat
  product_id : Nat
  product_name : String
  quantity : Nat
  price : ℚ
deriving Repr, DecidableEq

structure Db where
  carts : List Cart
  orders : List Order
  order_items : List OrderItem
deriving Repr, DecidableEq

/-- The cart-total loop: `Σ item.price * item.quantity`. -/
def cartTotal (items : List CartItem) : ℚ :=
  (items.map (fun i => i.price * (i.quantity : ℚ))).sum

/-- Function `checkout` from order-service routes.py, returning the updated database
and either the created order or the HTTP 400 status raised on an absent or
empty cart (in which case nothing was written). -/
def checkout (user_id : Nat) (shipping_address : String) (db : Db) :
    Db × Except Nat Order :=
  match db.carts.find? (fun c => c.user_id == user_id) with
  | none => (db, Except.error 400)
  | some cart =>
    if cart.items.length = 0 then (db, Except.error 400)
    else
      let order : Order :=
        { id := db.orders.length + 1, user_id := user_id,
          status := "pending", total_amount := cartTotal cart.items,
          shipping_address := shipping_address, payment_status := "pending" }
      let new_items : List OrderItem := cart.items.map (fun ci =>
        { order_id := order.id, product_id := ci.product_id,
          product_name := "Product " ++ toString ci.product_id,
          quantity := ci.quantity, price := ci.price })
      ({ carts := db.carts.map (fun c =>
            if c.id == cart.id then { c with items := [] } else c),
         orders := db.orders ++ [order],
         order_items := db.order_items ++ new_items },
       Except.ok order)

lemma clearCart_find (carts : List Cart) (u cid : Nat) :
    (carts.map (fun c => if c.id == cid then { c with items := [] } else c)).find?
        (fun c => c.user_id == u) =
      (carts.find? (fun c => c.user_id == u)).map
        (fun c => if c.id == cid then { c with items := [] } else c) := by
  rw [List.find?_map]
  have hp : ((fun c => c.user_id == u) ∘ fun c : Cart =>
      if c.id == cid then { c with items := [] } else c) =
        (fun c : Cart => c.user_id == u) := by
    funext c
    by_cases hc : c.id == cid <;> simp [Function.comp, hc]
  rw [hp]

/-- C10: with an absent or empty cart, checkout returns HTTP 400 and the
database is unchanged (no Order, no OrderItem created); with a non-empty
cart, checkout appends exactly one Order with status `pending`,
payment_status `pending` and total `Σ price·quantity` over the cart,
appends one OrderItem per cart item preserving product_id, quantity and
price, and empties the user's cart. -/
theorem checkout_spec (u : Nat) (addr : String) (db : Db) :
    (db.carts.find? (fun c => c.user_id == u) = none →
      checkout u addr db = (db, Except.error 400)) ∧
    (∀ cart, db.carts.find? (fun c => c.user_id == u) = some cart →
      cart.items = [] →
      checkout u addr db = (db, Except.error 400)) ∧
    (∀ cart, db.carts.find? (fun c => c.user_id == u) = some cart →
      cart.items ≠ [] →
      ∃ order,
        (checkout u addr db).2 = Except.ok order ∧
        order.status = "pending" ∧
        order.payment_status = "pending" ∧
        order.total_amount =
          (cart.items.map (fun i => i.price * (i.quantity : ℚ))).sum ∧
        (checkout u addr db).1.orders = db.orders ++ [order] ∧
        (∃ new_items,
          (checkout u addr db).1.order_items = db.order_items ++ new_items ∧
          new_items.map (fun oi => (oi.product_id, oi.quantity, oi.price)) =
            cart.items.map (fun ci => (ci.product_id, ci.quantity, ci.price))) ∧
        (checkout u addr db).1.carts.find? (fun c => c.user_id == u) =
          some { cart with items := [] }) := by
  refine ⟨?_, ?_, ?_⟩
  · intro hfind
    simp only [checkout, hfind]
  · intro cart hfind hempty
    have h0 : cart.items.length = 0 := by rw [hempty]; rfl
    simp only [checkout, hfind]
    rw [if_pos h0]
  · intro cart hfind hne
    have hlen : ¬ cart.items.length = 0 :=
      fun h => hne (List.length_eq_zero.mp h)
    refine ⟨{ id := db.orders.length + 1, user_id := u, status := "pending",
              total_amount := cartTotal cart.items, shipping_address := addr,
              payment_status := "pending" }, ?_, rfl, rfl, rfl, ?_, ?_, ?_⟩
    · show (checkout u addr db).2 = _
      simp only [checkout, hfind]
      rw [if_neg hlen]
    · show (checkout u addr db).1.orders = _
      simp only [checkout, hfind]
      rw [if_neg hlen]
    · refine ⟨cart.items.map (fun ci =>
        { order_id := db.orders.length + 1, product_id := ci.product_id,
           product_name := "Product " ++ toString ci.product_id,
           quantity := ci.quantity, price := ci.price }), ?_, ?_⟩
      · show (checkout u addr db).1.order_items = _
        simp only [checkout, hfind]
        rw [if_neg hlen]
      · rw [List.map_map]
        rfl
    · show (checkout u addr db).1.carts.find? _ = _
      simp only [checkout, hfind]
      rw [if_neg hlen]
      show (db.carts.map (fun c =>
        if c.id == cart.id then { c with items := [] } else c)).find?
          (fun c => c.user_id == u) = _
      rw [clearCart_find, hfind, Option.map_some']
      simp

/-- The cart used to witness C10: user 5, two items. -/
def c10Cart : Cart :=
  { id := 1, user_id := 5,
    items := [⟨1, 1, 101, 2, 10⟩, ⟨2, 1, 102, 1, 3⟩] }

/-- The database used to witness C10. -/
def c10Db : Db := { carts := [c10Cart], orders := [], order_items := [] }

/-- C10 witness: checking out user 5's two-item cart (2×10 + 1×3) creates a
pending order totalling 23 and leaves the cart empty. -/
theorem checkout_spec_witness :
    (checkout 5 "addr" c10Db).2 =
      Except.ok { id := 1, user_id := 5, status := "pending",
                  total_amount := 23, shipping_address := "addr",
                  payment_status := "pending" } ∧
    (checkout 5 "addr" c10Db).1.carts.find? (fun c => c.user_id == 5) =
      some { id := 1, user_id := 5, items := [] } := by
  obtain ⟨order, -, -, -, -, -, -, hcarts⟩ :=
    (checkout_spec 5 "addr" c10Db).2.2 c10Cart rfl (by decide)
  refine ⟨?_, ?_⟩
  · have h23 : cartTotal c10Cart.items = 23 := by
      norm_num [cartTotal, c10Cart]
    rw [← h23]
    rfl
  · rw [hcarts]
    rfl

end Boutique
